import Mathlib

/-!
# Verification of the scheduling dashboard (Frontrender2)

Shallow embedding of the appointment dashboard logic from `src/App.tsx` /
`src/unnamed/part_000`:

* the `Agendamento` record type (`src/types`, as used by the dashboard);
* the filter/sort engine of the `Dashboard` component's `useEffect`
  (part_000 lines 334-364): search match, status match, date match and the
  stable sort by composed date-time;
* the list-fetch handler `fetchAgendamentos` (lines 308-328);
* the create handler `handleAgendamentoSubmit` (lines 367-396);
* the disabled state of the buttons that trigger create / confirm / cancel
  requests (`Button` line 106, create form line 435, `AgendamentoCard`
  lines 528-592).

Modelling notes.  JavaScript `new Date("YYYY-MM-DDTHH:MM")` is modelled by a
parser for the exact strings produced by the form's `<input type="date">` and
`<input type="time">` controls (`YYYY-MM-DD` and `HH:MM`); an unparseable
string yields `none`, mirroring JavaScript's Invalid Date, whose `getDay()`
is `NaN` and which compares false (`>=`, `<=`) against every date, so such a
record never passes the date filter.  Time zones are modelled as a fixed
offset with no DST, so the "current instant" is abstracted by the index
`hoje : Int` of the current calendar day (day count since 1970-01-01): the
date logic of the source only uses the start of the current day
(`setHours(0,0,0,0)`), the end of the current day (`setHours(23,59,59,999)`)
and the start of the day seven days earlier (`setDate(getDate()-7)` then
`setHours(0,0,0,0)`), all of which are determined by that day index.
-/

namespace Frontrender

/-- Milliseconds in a calendar day (no DST in the model). -/
def msPerDay : Nat := 86400000

/-- The appointment record (`Agendamento` in the source).  `email` is the
optional contact field; a missing email is `none`.  `data` is the calendar
date string (`YYYY-MM-DD` from the date input) and `horario` the time-of-day
string (`HH:MM` from the time input); both are kept as raw strings exactly as
the source stores them. -/
structure Agendamento where
  id : Nat
  nome : String
  email : Option String
  telefone : String
  data : String
  horario : String
  status : String
deriving DecidableEq

/-! ## Case-insensitive substring search (`toLowerCase` + `includes`) -/

/-- `startsWithCh sub l` : `sub` is an initial segment of `l`
(JavaScript `String.prototype.startsWith` on the character level). -/
def startsWithCh : List Char → List Char → Bool
  | [], _ => true
  | _ :: _, [] => false
  | a :: as, b :: bs => a == b && startsWithCh as bs

/-- `containsCh sub hay` : `sub` occurs contiguously inside `hay`
(JavaScript `String.prototype.includes` on the character level). -/
def containsCh (sub : List Char) (hay : List Char) : Bool :=
  match hay with
  | [] => sub.isEmpty
  | c :: t => startsWithCh sub (c :: t) || containsCh sub t

/-- Case-insensitive containment: both sides lowercased first, exactly as the
source lowercases the search input once and each field before `includes`. -/
def lowerContains (hay sub : String) : Bool :=
  containsCh (sub.toList.map Char.toLower) (hay.toList.map Char.toLower)

/-! ## Parsing the composed date-time (`new Date(data + "T" + horario)`) -/

/-- Numeric value of a decimal digit character. -/
def digitVal (c : Char) : Nat := c.toNat - 48

/-- Leap year test of the Gregorian calendar. -/
def isLeap (y : Nat) : Bool := y % 4 == 0 && (y % 100 != 0 || y % 400 == 0)

/-- Number of days in month `m` of year `y`. -/
def daysInMonth (y m : Nat) : Nat :=
  if m == 2 then (if isLeap y then 29 else 28)
  else if m == 4 || m == 6 || m == 9 || m == 11 then 30
  else 31

/-- Day count of the civil date `y-m-d` since 1970-01-01 (negative before
the epoch).  Standard Gregorian-calendar arithmetic. -/
def daysFromCivil (y m d : Nat) : Int :=
  let y2 : Int := if m ≤ 2 then (y : Int) - 1 else (y : Int)
  let era : Int := Int.fdiv y2 400
  let yoe : Int := y2 - era * 400
  let mp : Nat := if 2 < m then m - 3 else m + 9
  let doy : Nat := (153 * mp + 2) / 5 + d - 1
  let doe : Int := yoe * 365 + Int.fdiv yoe 4 - Int.fdiv yoe 100 + (doy : Int)
  era * 146097 + doe - 719468

/-- Parse a date string `YYYY-MM-DD` (the format of `<input type="date">`),
validating month and day ranges as JavaScript's ISO date parser does. -/
def parseData (s : String) : Option (Nat × Nat × Nat) :=
  match s.toList with
  | [y1, y2, y3, y4, s1, m1, m2, s2, d1, d2] =>
    if s1 = '-' ∧ s2 = '-' ∧ y1.isDigit ∧ y2.isDigit ∧ y3.isDigit ∧ y4.isDigit
        ∧ m1.isDigit ∧ m2.isDigit ∧ d1.isDigit ∧ d2.isDigit then
      let y := digitVal y1 * 1000 + digitVal y2 * 100 + digitVal y3 * 10 + digitVal y4
      let m := digitVal m1 * 10 + digitVal m2
      let d := digitVal d1 * 10 + digitVal d2
      if 1 ≤ m ∧ m ≤ 12 ∧ 1 ≤ d ∧ d ≤ daysInMonth y m then some (y, m, d) else none
    else none
  | _ => none

/-- Parse a time string `HH:MM` (the format of `<input type="time">`) into
milliseconds within the day. -/
def parseHorario (s : String) : Option Nat :=
  match s.toList with
  | [h1, h2, c, n1, n2] =>
    if c = ':' ∧ h1.isDigit ∧ h2.isDigit ∧ n1.isDigit ∧ n2.isDigit then
      let h := digitVal h1 * 10 + digitVal h2
      let n := digitVal n1 * 10 + digitVal n2
      if h ≤ 23 ∧ n ≤ 59 then some (h * 3600000 + n * 60000) else none
    else none
  | _ => none

/-- The composed date-time of a record:
`new Date(a.data + "T" + a.horario)` as a pair (day index since 1970-01-01,
milliseconds within the day), or `none` for an Invalid Date. -/
def dataAgendamento (a : Agendamento) : Option (Int × Nat) :=
  match parseData a.data, parseHorario a.horario with
  | some (y, m, d), some ms => some (daysFromCivil y m d, ms)
  | _, _ => none

/-- Millisecond timestamp of a composed date-time (`Date.prototype.getTime`). -/
def toMs (p : Int × Nat) : Int := p.1 * (msPerDay : Int) + (p.2 : Int)

/-- `Date.prototype.getDay`: day of week, 0 = Sunday.  1970-01-01 was a
Thursday, hence the offset 4. -/
def getDay (p : Int × Nat) : Int := (p.1 + 4) % 7

/-! ## The filter predicates (part_000 lines 335-360) -/

/-- The email half of the search condition at line 337:
`a.email && a.email.toLowerCase().includes(f)`.  A missing or empty email is
falsy in JavaScript, so it contributes `false`. -/
def emailSearch (email : Option String) (search : String) : Bool :=
  match email with
  | none => false
  | some e => !(e == "") && lowerContains e search

/-- Line 337: `a.nome.toLowerCase().includes(f) ||
(a.email && a.email.toLowerCase().includes(f))`. -/
def matchesSearch (search : String) (a : Agendamento) : Bool :=
  lowerContains a.nome search || emailSearch a.email search

/-- Line 338: `!statusFilter || a.status === statusFilter`
(the empty status filter is falsy and matches everything). -/
def matchesStatus (statusFilter : String) (a : Agendamento) : Bool :=
  statusFilter == "" || a.status == statusFilter

/-- The date condition of lines 345-357 on a successfully parsed composed
date-time, with `hoje` the day index of the current calendar day.
Selector in `[0,6]`: same weekday and not before the start of the current
day; selector `-1`: within the closed window from 00:00:00 seven days ago to
23:59:59.999 today; anything else: `matchesDate` keeps its initial `false`. -/
def dateOk (dia hoje : Int) (p : Int × Nat) : Bool :=
  if 0 ≤ dia ∧ dia ≤ 6 then
    getDay p == dia && decide (hoje * (msPerDay : Int) ≤ toMs p)
  else if dia = -1 then
    decide ((hoje - 7) * (msPerDay : Int) ≤ toMs p) &&
      decide (toMs p ≤ hoje * (msPerDay : Int) + 86399999)
  else false

/-- Lines 341-358.  An unparseable composed date-time (JavaScript Invalid
Date) fails every branch: `getDay()` is `NaN`, and `NaN` compares false
under `>=` and `<=`. -/
def matchesDate (dia hoje : Int) (a : Agendamento) : Bool :=
  match dataAgendamento a with
  | none => false
  | some p => dateOk dia hoje p

/-- The conjunction returned at line 360:
`matchesSearch && matchesStatus && matchesDate`. -/
def agPred (search statusFilter : String) (dia hoje : Int) (a : Agendamento) : Bool :=
  matchesSearch search a && matchesStatus statusFilter a && matchesDate dia hoje a

/-! ## The sort (line 361)

`Array.prototype.sort` with the comparator
`new Date(aT).getTime() - new Date(bT).getTime()` is a stable sort (ES2019)
ordering by the millisecond timestamp, modelled as a stable insertion sort by
that key. -/

/-- Sort key: the millisecond timestamp of the composed date-time.
`getTime()` of an Invalid Date is `NaN`; such records are removed by the
filter before the sort runs, so the `none` value is irrelevant and fixed
to `0`. -/
def key (a : Agendamento) : Int :=
  match dataAgendamento a with
  | some p => toMs p
  | none => 0

/-- Stable insertion of `x` into a list: `x` passes only strictly smaller
keys, so it lands before every element of equal key, as a stable sort places
an earlier input element. -/
def sortInsert (x : Agendamento) : List Agendamento → List Agendamento
  | [] => [x]
  | y :: ys => if key x ≤ key y then x :: y :: ys else y :: sortInsert x ys

/-- Stable insertion sort by `key` (the model of line 361's `.sort`). -/
def sortByKey : List Agendamento → List Agendamento
  | [] => []
  | x :: xs => sortInsert x (sortByKey xs)

/-- The whole filter/sort engine of the `useEffect` at lines 334-364:
filter by search, status and date, then sort by composed date-time. -/
def filterAgendamentos (search statusFilter : String) (dia hoje : Int)
    (l : List Agendamento) : List Agendamento :=
  sortByKey (l.filter (agPred search statusFilter dia hoje))

/-! ## Dashboard state and handlers -/

/-- The three pieces of `Dashboard` state touched by the handlers. -/
structure DashboardState where
  agendamentos : List Agendamento
  filteredAgendamentos : List Agendamento
  loadingAgendamentos : Bool
deriving DecidableEq

/-- The filter/sort `useEffect` as a state transformer: it recomputes
`filteredAgendamentos` from `agendamentos` and the filter inputs and writes
nothing else (line 363 `setFilteredAgendamentos(filtered)`). -/
def applyFilterEffect (search statusFilter : String) (dia hoje : Int)
    (st : DashboardState) : DashboardState :=
  { st with filteredAgendamentos :=
      filterAgendamentos search statusFilter dia hoje st.agendamentos }

/-- Toast severity (`showToast`'s `type` argument). -/
inductive ToastType | success | error | info | warning
deriving DecidableEq

/-- A toast notification: message and severity. -/
structure Toast where
  msg : String
  type : ToastType
deriving DecidableEq

/-- The possible outcomes of the `GET /agendamentos` request:
`ok` response with an optional `agendamentos` array in the body, a non-ok
HTTP status, or a thrown network error. -/
inductive FetchResp
  | success (body : Option (List Agendamento))
  | httpError (status : Nat)
  | netError

/-- Observable effects of one run of `fetchAgendamentos`: how many HTTP
requests were issued, how many `signOut()` calls were made, and the toasts
shown, in order. -/
structure FetchEffects where
  requests : Nat
  signOutCalls : Nat
  toasts : List Toast
deriving DecidableEq

/-- `fetchAgendamentos` (lines 308-328) against a given response.
With no token it returns immediately (line 309).  On `res.ok` it stores
`data.agendamentos || []`; on status 401 it calls `signOut()` once and shows
one error toast, leaving the list untouched; on any other non-ok status it
does nothing; on a thrown fetch it shows one error toast.  Exactly one
request is issued and never retried; `loadingAgendamentos` is reset in the
`finally` block. -/
def fetchAgendamentos (token : Option String) (resp : FetchResp)
    (st : DashboardState) : DashboardState × FetchEffects :=
  match token with
  | none => (st, ⟨0, 0, []⟩)
  | some _ =>
    match resp with
    | .success body =>
        ({ st with agendamentos := body.getD [], loadingAgendamentos := false },
         ⟨1, 0, []⟩)
    | .httpError status =>
        if status = 401 then
          ({ st with loadingAgendamentos := false },
           ⟨1, 1, [⟨"Sessão expirada. Faça login novamente.", .error⟩]⟩)
        else
          ({ st with loadingAgendamentos := false }, ⟨1, 0, []⟩)
    | .netError =>
        ({ st with loadingAgendamentos := false },
         ⟨1, 0, [⟨"Erro ao carregar agendamentos.", .error⟩]⟩)

/-- The create form's fields as strings; a field absent from the form data is
the empty string, which is falsy in JavaScript exactly like `""`. -/
structure AgForm where
  nome : String
  email : String
  telefone : String
  data : String
  horario : String

/-- Outcome of the `POST /agendar` request: ok, non-ok with an optional
`msg` in the body, or a thrown network error. -/
inductive SubmitResp
  | success
  | failure (msg : Option String)
  | netError

/-- Observable effects of one run of `handleAgendamentoSubmit`: requests
issued, toasts shown, and whether a list re-fetch was triggered. -/
structure SubmitEffects where
  requests : Nat
  toasts : List Toast
  refetch : Bool
deriving DecidableEq

/-- `handleAgendamentoSubmit` (lines 367-396).  With no token it returns
immediately (line 369).  If `nome`, `telefone`, `data` or `horario` is empty
(falsy), it shows one warning toast and sends nothing (lines 374-377).
Otherwise one request is issued: on ok it shows a success toast and triggers
`fetchAgendamentos()`; on a non-ok response it shows `result.msg` or the
generic fallback; on a thrown fetch it shows a connection-error toast.  The
appointment list state is never written here. -/
def handleAgendamentoSubmit (token : Option String) (form : AgForm)
    (resp : SubmitResp) (st : DashboardState) : DashboardState × SubmitEffects :=
  match token with
  | none => (st, ⟨0, [], false⟩)
  | some _ =>
    if form.nome = "" ∨ form.telefone = "" ∨ form.data = "" ∨ form.horario = "" then
      (st, ⟨0, [⟨"Preencha todos os campos obrigatórios", .warning⟩], false⟩)
    else
      match resp with
      | .success => (st, ⟨1, [⟨"Agendado com sucesso!", .success⟩], true⟩)
      | .failure msg => (st, ⟨1, [⟨msg.getD "Erro ao agendar", .error⟩], false⟩)
      | .netError => (st, ⟨1, [⟨"Erro de conexão ao agendar", .error⟩], false⟩)

/-! ## Button disabling during in-flight requests

The shared `Button` component (line 106) renders
`disabled={isLoading}`.  `AgendamentoCard`'s confirm and cancel buttons pass
`isLoading={isSubmitting}` (lines 583, 586), and `handleStatusChange` sets
`isSubmitting` to `true` before issuing the request (line 534) and back to
`false` in its `finally` block (line 553).  The create form's submit button
(line 435) passes no `isLoading` prop at all, so it keeps the default
`isLoading = false` in every phase. -/

/-- Phases of one create / confirm / cancel request. -/
inductive ReqPhase | issued | inFlight | settled
deriving DecidableEq

/-- The kind of action a control triggers. -/
inductive ActionKind | create | confirm | cancel
deriving DecidableEq

/-- `Button` line 106: `disabled={isLoading}`. -/
def buttonDisabled (isLoading : Bool) : Bool := isLoading

/-- `AgendamentoCard.isSubmitting` over the request phases: set `true` before
the fetch (line 534), reset in `finally` (line 553). -/
def cardIsSubmitting : ReqPhase → Bool
  | .issued => true
  | .inFlight => true
  | .settled => false

/-- The `isLoading` prop of the create form's submit button (line 435):
no prop is passed, so it is the default `false` in every phase. -/
def createSubmitIsLoading : ReqPhase → Bool := fun _ => false

/-- Whether the control that triggered the given action is disabled in the
given phase of that action's request. -/
def triggerDisabled : ActionKind → ReqPhase → Bool
  | .create, p => buttonDisabled (createSubmitIsLoading p)
  | .confirm, p => buttonDisabled (cardIsSubmitting p)
  | .cancel, p => buttonDisabled (cardIsSubmitting p)

/-! ## Concrete records used for witnesses and counterexamples -/

/-- Sample record: "Ana" on 2025-01-10 (day index 20098) at 09:00. -/
def anaRec : Agendamento := ⟨1, "Ana", none, "111", "2025-01-10", "09:00", "pendente"⟩

/-- Sample record: "Bea" on 2025-01-10 at 08:00, with an email. -/
def beaRec : Agendamento := ⟨2, "Bea", some "bea@x.com", "222", "2025-01-10", "08:00", "confirmado"⟩

/-- Sample record on the past Sunday 2025-01-05 (relative to day 20096,
which is Wednesday 2025-01-08). -/
def pastSunRec : Agendamento := ⟨3, "Pat", none, "333", "2025-01-05", "10:00", "pendente"⟩

/-- Sample record on the future Sunday 2025-01-12. -/
def futSunRec : Agendamento := ⟨4, "Fut", none, "444", "2025-01-12", "10:00", "pendente"⟩

/-- Sample record whose date string does not parse. -/
def badRec : Agendamento := ⟨5, "Bad", none, "555", "banana", "09:00", "pendente"⟩

/-! ## Sort lemmas: the stable insertion sort is a permutation, sorted by
`key`, and preserves the relative order of equal keys -/

/-- The ordering relation of the sort: comparator
`getTime(a) - getTime(b) ≤ 0`. -/
def keyLE (a b : Agendamento) : Prop := key a ≤ key b

theorem perm_sortInsert (x : Agendamento) (l : List Agendamento) :
    (sortInsert x l).Perm (x :: l) := by
  induction l with
  | nil => simp [sortInsert]
  | cons y ys ih =>
    rw [sortInsert]
    by_cases h : key x ≤ key y
    · rw [if_pos h]
    · rw [if_neg h]
      exact (ih.cons y).trans (List.Perm.swap x y ys)

theorem perm_sortByKey (l : List Agendamento) : (sortByKey l).Perm l := by
  induction l with
  | nil => rfl
  | cons x xs ih => exact (perm_sortInsert x (sortByKey xs)).trans (ih.cons x)

theorem mem_sortByKey {a : Agendamento} {l : List Agendamento} :
    a ∈ sortByKey l ↔ a ∈ l :=
  (perm_sortByKey l).mem_iff

theorem sorted_sortInsert (x : Agendamento) :
    ∀ l : List Agendamento, List.Sorted keyLE l → List.Sorted keyLE (sortInsert x l)
  | [], _ => by simp [sortInsert, List.sorted_singleton]
  | y :: ys, h => by
    rw [sortInsert]
    by_cases hx : key x ≤ key y
    · rw [if_pos hx]
      refine List.sorted_cons.2 ⟨?_, h⟩
      intro b hb
      rcases List.mem_cons.1 hb with rfl | hbys
      · exact hx
      · exact le_trans hx (List.rel_of_sorted_cons h b hbys)
    · rw [if_neg hx]
      refine List.sorted_cons.2 ⟨?_, sorted_sortInsert x ys h.of_cons⟩
      intro b hb
      rcases List.mem_cons.1 ((perm_sortInsert x ys).mem_iff.1 hb) with rfl | hbys
      · exact le_of_lt (lt_of_not_le hx)
      · exact List.rel_of_sorted_cons h b hbys

theorem sorted_sortByKey (l : List Agendamento) : List.Sorted keyLE (sortByKey l) := by
  induction l with
  | nil => simp [sortByKey]
  | cons x xs ih => exact sorted_sortInsert x (sortByKey xs) ih

/-- Stability of one insertion: `x` passes only strictly smaller keys, so
the sublist of entries with key `k` gains `x` at the front exactly when
`key x = k` and is otherwise untouched. -/
theorem filter_sortInsert (k : Int) (x : Agendamento) :
    ∀ l : List Agendamento,
      (sortInsert x l).filter (fun a => key a == k) =
        (if key x == k then [x] else []) ++ l.filter (fun a => key a == k)
  | [] => by
    rw [sortInsert]
    by_cases hxk : key x == k <;> simp [List.filter_cons, hxk]
  | y :: ys => by
    rw [sortInsert]
    by_cases hx : key x ≤ key y
    · rw [if_pos hx]
      by_cases hxk : key x == k <;> by_cases hyk : key y == k <;>
        simp [List.filter_cons, hxk, hyk]
    · rw [if_neg hx]
      by_cases hxk : key x == k
      · have hyk : (key y == k) = false := by
          have h1 : key y < key x := lt_of_not_le hx
          have h2 : key x = k := beq_iff_eq.1 hxk
          simp only [beq_eq_false_iff_ne, ne_eq]
          omega
        simp [List.filter_cons, hxk, hyk, filter_sortInsert k x ys]
      · simp [List.filter_cons, hxk, filter_sortInsert k x ys]

/-- Stability of the whole sort: the sublist of entries with any fixed key
is exactly the input's sublist of entries with that key. -/
theorem filter_sortByKey (k : Int) :
    ∀ l : List Agendamento,
      (sortByKey l).filter (fun a => key a == k) = l.filter (fun a => key a == k)
  | [] => rfl
  | x :: xs => by
    rw [sortByKey, filter_sortInsert k x (sortByKey xs), filter_sortByKey k xs]
    by_cases hxk : key x == k <;> simp [List.filter_cons, hxk]

/-- The empty pattern is contained in every list of characters
(JavaScript `includes("")` is always `true`). -/
theorem containsCh_nil (hay : List Char) : containsCh [] hay = true := by
  induction hay with
  | nil => rfl
  | cons c t ih => simp [containsCh, startsWithCh, ih]

/-- The empty search string is contained in every string. -/
theorem lowerContains_empty (hay : String) : lowerContains hay "" = true := by
  have h : "".toList = ([] : List Char) := rfl
  rw [lowerContains, h, List.map_nil, containsCh_nil]

theorem matchesDate_none {dia hoje : Int} {a : Agendamento}
    (h : dataAgendamento a = none) : matchesDate dia hoje a = false := by
  simp [matchesDate, h]

theorem matchesDate_some {dia hoje : Int} {a : Agendamento} {p : Int × Nat}
    (h : dataAgendamento a = some p) : matchesDate dia hoje a = dateOk dia hoje p := by
  simp [matchesDate, h]

/-- A record of the engine's output satisfies the whole filter predicate. -/
theorem pred_of_mem_filterAgendamentos {search statusFilter : String} {dia hoje : Int}
    {l : List Agendamento} {a : Agendamento}
    (h : a ∈ filterAgendamentos search statusFilter dia hoje l) :
    matchesSearch search a = true ∧ matchesStatus statusFilter a = true ∧
      matchesDate dia hoje a = true := by
  have hp := (List.mem_filter.1 (mem_sortByKey.1 h)).2
  simpa [agPred, Bool.and_eq_true, and_assoc] using hp

/-! ## Claims -/

/-- C1: for every appointment list and every filter setting, the engine's
output is ordered non-decreasingly by composed date-time (the `key`
timestamp), and the entries with any fixed composed date-time appear in the
same relative order as in the input list (stable sort). -/
theorem c1_output_sorted_and_stable (search statusFilter : String) (dia hoje : Int)
    (l : List Agendamento) :
    List.Sorted keyLE (filterAgendamentos search statusFilter dia hoje l) ∧
    ∀ k : Int,
      (filterAgendamentos search statusFilter dia hoje l).filter (fun a => key a == k) =
        l.filter (fun a => agPred search statusFilter dia hoje a && key a == k) := by
  refine ⟨sorted_sortByKey _, fun k => ?_⟩
  rw [filterAgendamentos, filter_sortByKey, List.filter_filter]
  exact List.filter_congr fun a _ => Bool.and_comm _ _

/-- C2: every record of the engine's output contains the search string as a
case-insensitive substring of its name or of its email, and the empty search
string matches every record. -/
theorem c2_output_matches_search (search statusFilter : String) (dia hoje : Int)
    (l : List Agendamento) (a : Agendamento)
    (h : a ∈ filterAgendamentos search statusFilter dia hoje l) :
    (lowerContains a.nome search = true ∨
      ∃ e, a.email = some e ∧ lowerContains e search = true) ∧
    ∀ b : Agendamento, matchesSearch "" b = true := by
  constructor
  · have hs := (pred_of_mem_filterAgendamentos h).1
    rw [matchesSearch, Bool.or_eq_true] at hs
    rcases hs with hn | he
    · exact Or.inl hn
    · cases hem : a.email with
      | none => rw [hem] at he; simp [emailSearch] at he
      | some e =>
        rw [hem] at he
        simp only [emailSearch, Bool.and_eq_true] at he
        exact Or.inr ⟨e, rfl, he.2⟩
  · intro b
    rw [matchesSearch, lowerContains_empty]
    rfl

/-- Witness for C2: on the list `[anaRec]` with search `"AN"`, the output
contains `anaRec` and its name contains the search case-insensitively. -/
theorem c2_output_matches_search_witness :
    (lowerContains anaRec.nome "AN" = true ∨
      ∃ e, anaRec.email = some e ∧ lowerContains e "AN" = true) ∧
    ∀ b : Agendamento, matchesSearch "" b = true :=
  c2_output_matches_search "AN" "" (-1) 20098 [anaRec] anaRec (by decide)

/-- C3: with a weekday selector in `[0,6]`, every record of the engine's
output has a composed date-time on that weekday (0 = Sunday) that is not
earlier than the start of the current calendar day. -/
theorem c3_weekday_filter_sound (search statusFilter : String) (dia hoje : Int)
    (l : List Agendamento) (a : Agendamento)
    (h0 : 0 ≤ dia) (h6 : dia ≤ 6)
    (h : a ∈ filterAgendamentos search statusFilter dia hoje l) :
    ∃ p, dataAgendamento a = some p ∧ getDay p = dia ∧
      hoje * (msPerDay : Int) ≤ toMs p := by
  have hd := (pred_of_mem_filterAgendamentos h).2.2
  cases heq : dataAgendamento a with
  | none => rw [matchesDate_none heq] at hd; cases hd
  | some p =>
    rw [matchesDate_some heq, dateOk, if_pos ⟨h0, h6⟩, Bool.and_eq_true] at hd
    exact ⟨p, rfl, beq_iff_eq.1 hd.1, of_decide_eq_true hd.2⟩

/-- Witness for C3: on Wednesday 2025-01-08 (day 20096) with selector 0
(Sunday), a list holding the past Sunday 2025-01-05 and the future Sunday
2025-01-12 yields only the future one, and that record is on a Sunday not
earlier than the start of the current day. -/
theorem c3_weekday_filter_sound_witness :
    filterAgendamentos "" "" 0 20096 [pastSunRec, futSunRec] = [futSunRec] ∧
    ∃ p, dataAgendamento futSunRec = some p ∧ getDay p = 0 ∧
      20096 * (msPerDay : Int) ≤ toMs p :=
  ⟨by decide,
    c3_weekday_filter_sound "" "" 0 20096 [pastSunRec, futSunRec] futSunRec
      (by decide) (by decide) (by decide)⟩

/-- C4: with selector `-1`, a record of the list is in the engine's output
exactly when it passes the search and status conditions and its composed
date-time lies in the closed window from 00:00:00 seven days before the
current day to 23:59:59.999 of the current day. -/
theorem c4_last_week_characterization (search statusFilter : String) (hoje : Int)
    (l : List Agendamento) (a : Agendamento) (hmem : a ∈ l) :
    a ∈ filterAgendamentos search statusFilter (-1) hoje l ↔
      matchesSearch search a = true ∧ matchesStatus statusFilter a = true ∧
      ∃ p, dataAgendamento a = some p ∧
        (hoje - 7) * (msPerDay : Int) ≤ toMs p ∧
        toMs p ≤ hoje * (msPerDay : Int) + 86399999 := by
  rw [filterAgendamentos, mem_sortByKey, List.mem_filter]
  constructor
  · rintro ⟨-, hp⟩
    rw [agPred, Bool.and_eq_true, Bool.and_eq_true] at hp
    obtain ⟨⟨hs, hst⟩, hd⟩ := hp
    refine ⟨hs, hst, ?_⟩
    cases heq : dataAgendamento a with
    | none => rw [matchesDate_none heq] at hd; cases hd
    | some p =>
      rw [matchesDate_some heq, dateOk, if_neg (by omega), if_pos rfl,
        Bool.and_eq_true] at hd
      exact ⟨p, rfl, of_decide_eq_true hd.1, of_decide_eq_true hd.2⟩
  · rintro ⟨hs, hst, p, heq, hlo, hhi⟩
    refine ⟨hmem, ?_⟩
    rw [agPred, Bool.and_eq_true, Bool.and_eq_true]
    refine ⟨⟨hs, hst⟩, ?_⟩
    rw [matchesDate_some heq, dateOk, if_neg (by omega), if_pos rfl,
      Bool.and_eq_true]
    exact ⟨decide_eq_true hlo, decide_eq_true hhi⟩

/-- Witness for C4: with the current day 2025-01-10 (day 20098), the record
`anaRec` (2025-01-10 09:00) is in the output for selector `-1`, and the
characterization yields its window membership. -/
theorem c4_last_week_characterization_witness :
    matchesSearch "" anaRec = true ∧ matchesStatus "" anaRec = true ∧
    ∃ p, dataAgendamento anaRec = some p ∧
      ((20098 : Int) - 7) * (msPerDay : Int) ≤ toMs p ∧
      toMs p ≤ (20098 : Int) * (msPerDay : Int) + 86399999 :=
  (c4_last_week_characterization "" "" 20098 [anaRec, beaRec] anaRec (by decide)).1
    (by decide)

/-- C5 (counterexample): with selector `-2`, a record that passes the search
and status conditions is nevertheless absent from the output, so the claim
that out-of-range selectors apply no date filter is false. -/
theorem c5_counterexample_selector_minus_two :
    matchesSearch "" anaRec = true ∧ matchesStatus "" anaRec = true ∧
    anaRec ∉ filterAgendamentos "" "" (-2) 20098 [anaRec] := by decide

/-- C5 (amended): for every selector outside `{-1, 0, ..., 6}`, the date
condition is false for every record, so the engine's output is empty
regardless of the search and status conditions. -/
theorem c5_out_of_range_selector_empty (search statusFilter : String) (dia hoje : Int)
    (l : List Agendamento) (h : dia < -1 ∨ 6 < dia) :
    filterAgendamentos search statusFilter dia hoje l = [] := by
  rw [filterAgendamentos]
  have hf : l.filter (agPred search statusFilter dia hoje) = [] := by
    rw [List.filter_eq_nil_iff]
    intro a _
    have hd : matchesDate dia hoje a = false := by
      cases heq : dataAgendamento a with
      | none => exact matchesDate_none heq
      | some p =>
        rw [matchesDate_some heq, dateOk, if_neg (by omega), if_neg (by omega)]
    simp [agPred, hd]
  rw [hf]
  rfl

/-- Witness for C5 (amended) at selector `-2`. -/
theorem c5_out_of_range_selector_empty_witness :
    ((-2 : Int) < -1 ∨ 6 < (-2 : Int)) ∧
    filterAgendamentos "" "" (-2) 20098 [anaRec, beaRec] = [] :=
  ⟨by decide, c5_out_of_range_selector_empty "" "" (-2) 20098 [anaRec, beaRec] (by decide)⟩

/-- C6: the engine is a total function, and a record whose composed
date-time does not parse is treated as filtered out: it never appears in the
output, for any filter settings. -/
theorem c6_unparseable_filtered_out (search statusFilter : String) (dia hoje : Int)
    (l : List Agendamento) (a : Agendamento) (h : dataAgendamento a = none) :
    a ∉ filterAgendamentos search statusFilter dia hoje l := by
  rw [filterAgendamentos, mem_sortByKey, List.mem_filter]
  rintro ⟨-, hp⟩
  simp [agPred, matchesDate_none h] at hp

/-- Witness for C6: the record with date string `"banana"` parses to no
instant and is absent from the output. -/
theorem c6_unparseable_filtered_out_witness :
    dataAgendamento badRec = none ∧
    badRec ∉ filterAgendamentos "" "" (-1) 20098 [anaRec, badRec] :=
  ⟨by decide, c6_unparseable_filtered_out "" "" (-1) 20098 [anaRec, badRec] badRec (by decide)⟩

/-- C7: the filter/sort effect never mutates the underlying record set: the
source list is unchanged, and the displayed projection is a permutation of a
sublist of the input. -/
theorem c7_pure_projection (search statusFilter : String) (dia hoje : Int)
    (st : DashboardState) :
    (applyFilterEffect search statusFilter dia hoje st).agendamentos = st.agendamentos ∧
    ∃ u, u.Sublist st.agendamentos ∧
      (applyFilterEffect search statusFilter dia hoje st).filteredAgendamentos.Perm u :=
  ⟨rfl, st.agendamentos.filter (agPred search statusFilter dia hoje),
    List.filter_sublist _, perm_sortByKey _⟩

/-- C8: a 401 response to the list fetch causes exactly one `signOut()`
call and exactly one error toast, with exactly one request (no retry) and no
change to the appointment list. -/
theorem c8_unauthorized_fetch (tk : String) (st : DashboardState) :
    (fetchAgendamentos (some tk) (.httpError 401) st).2.signOutCalls = 1 ∧
    (fetchAgendamentos (some tk) (.httpError 401) st).2.toasts =
      [⟨"Sessão expirada. Faça login novamente.", .error⟩] ∧
    (fetchAgendamentos (some tk) (.httpError 401) st).2.requests = 1 ∧
    (fetchAgendamentos (some tk) (.httpError 401) st).1.agendamentos = st.agendamentos := by
  refine ⟨rfl, rfl, rfl, rfl⟩

/-- C9: the create handler issues a request only when name, phone, date and
time are all non-empty; with a token present, an empty required field sends
nothing, shows exactly one warning toast, and leaves the state unchanged. -/
theorem c9_create_validation (token : Option String) (form : AgForm)
    (resp : SubmitResp) (st : DashboardState) :
    ((handleAgendamentoSubmit token form resp st).2.requests ≠ 0 →
      form.nome ≠ "" ∧ form.telefone ≠ "" ∧ form.data ≠ "" ∧ form.horario ≠ "") ∧
    (∀ tk, token = some tk →
      (form.nome = "" ∨ form.telefone = "" ∨ form.data = "" ∨ form.horario = "") →
      (handleAgendamentoSubmit token form resp st).2.requests = 0 ∧
      (handleAgendamentoSubmit token form resp st).2.toasts =
        [⟨"Preencha todos os campos obrigatórios", .warning⟩] ∧
      (handleAgendamentoSubmit token form resp st).1 = st) := by
  cases token with
  | none =>
    refine ⟨fun h => absurd rfl h, fun tk htk => ?_⟩
    cases htk
  | some t =>
    by_cases hempty : form.nome = "" ∨ form.telefone = "" ∨ form.data = "" ∨ form.horario = ""
    · have hred : handleAgendamentoSubmit (some t) form resp st =
          (st, ⟨0, [⟨"Preencha todos os campos obrigatórios", .warning⟩], false⟩) := by
        simp only [handleAgendamentoSubmit, if_pos hempty]
      rw [hred]
      exact ⟨fun h => absurd rfl h, fun tk _ _ => ⟨rfl, rfl, rfl⟩⟩
    · push_neg at hempty
      constructor
      · intro _
        exact hempty
      · intro tk _ hcontr
        rcases hcontr with h | h | h | h
        · exact absurd h hempty.1
        · exact absurd h hempty.2.1
        · exact absurd h hempty.2.2.1
        · exact absurd h hempty.2.2.2

/-- Witness for C9: a form with an empty name and a token present sends no
request, shows the warning toast, and leaves the state unchanged. -/
theorem c9_create_validation_witness :
    (handleAgendamentoSubmit (some "tok") ⟨"", "e@x", "111", "2025-01-10", "09:00"⟩
        .success ⟨[], [], false⟩).2.requests = 0 ∧
    (handleAgendamentoSubmit (some "tok") ⟨"", "e@x", "111", "2025-01-10", "09:00"⟩
        .success ⟨[], [], false⟩).2.toasts =
      [⟨"Preencha todos os campos obrigatórios", .warning⟩] ∧
    (handleAgendamentoSubmit (some "tok") ⟨"", "e@x", "111", "2025-01-10", "09:00"⟩
        .success ⟨[], [], false⟩).1 = ⟨[], [], false⟩ :=
  (c9_create_validation (some "tok") ⟨"", "e@x", "111", "2025-01-10", "09:00"⟩
    .success ⟨[], [], false⟩).2 "tok" rfl (Or.inl rfl)

/-- C10 (counterexample): while a create request is in flight, the create
form's submit button is not disabled, so the claim that every in-flight
create/confirm/cancel disables its triggering control fails for create. -/
theorem c10_counterexample_create_not_disabled :
    triggerDisabled ActionKind.create ReqPhase.inFlight = false := rfl

/-- C10 (amended): the confirm and cancel controls are disabled from the
moment their request is issued until it settles, but the create form's
submit button is never disabled in any phase of a create request. -/
theorem c10_confirm_cancel_disabled_create_not :
    triggerDisabled ActionKind.confirm ReqPhase.issued = true ∧
    triggerDisabled ActionKind.confirm ReqPhase.inFlight = true ∧
    triggerDisabled ActionKind.cancel ReqPhase.issued = true ∧
    triggerDisabled ActionKind.cancel ReqPhase.inFlight = true ∧
    ∀ p : ReqPhase, triggerDisabled ActionKind.create p = false := by
  refine ⟨rfl, rfl, rfl, rfl, fun p => rfl⟩

end Frontrender
